import Mathlib

/-!
Verification of the data.gov.in client core (`src/data_gov_in/api_client.py`,
`src/data_gov_in/cache.py`): the sliding-window rate limiter, the TTL/LRU
response cache, and the retrying request orchestrator.

Time is modelled logically as rational seconds; `time.sleep` advances the
clock by exactly the requested duration and everything else is instantaneous.
Every definition is a direct translation of the corresponding Python source.
-/

set_option allowUnsafeReducibility true

set_option maxRecDepth 100000

attribute [local semireducible] Rat.add Rat.sub Rat.mul Rat.inv Rat.ofScientific

/-! ### RateLimiter (`api_client.py`, lines 26-47) -/

/-- State of `RateLimiter`: `calls` records admission timestamps in insertion
order (oldest first), mirroring `self.calls`. -/
structure RateLimiter where
  maxCalls : ℕ
  period : ℚ
  calls : List ℚ
deriving DecidableEq

/-- `RateLimiter.wait_if_needed`, called at clock value `now`.  Prunes
timestamps outside the window, sleeps when the pruned window is full
(`sleep_time = period - (now - calls[0])`), resets the recorded set after a
sleep, and appends the post-sleep clock value.  Returns the new state and the
admission instant (the clock value when the function returns). -/
def RateLimiter.waitIfNeeded (rl : RateLimiter) (now : ℚ) : RateLimiter × ℚ :=
  let pruned := rl.calls.filter (fun t => decide (now - t < rl.period))
  if rl.maxCalls ≤ pruned.length then
    let sleepTime := rl.period - (now - pruned.headD 0)
    if 0 < sleepTime then
      let release := now + sleepTime
      ({ rl with calls := [release] }, release)
    else
      ({ rl with calls := pruned ++ [now] }, now)
  else
    ({ rl with calls := pruned ++ [now] }, now)

/-- Run a sequence of sequential `wait_if_needed` calls at the given arrival
times, collecting the admission instants. -/
def RateLimiter.run (rl : RateLimiter) : List ℚ → RateLimiter × List ℚ
  | [] => (rl, [])
  | t :: ts =>
      let s := rl.waitIfNeeded t
      let r := s.1.run ts
      (r.1, s.2 :: r.2)

/-- Number of instants falling inside the trailing window of length `period`
that ends at `endT` (the same window predicate the limiter itself uses for
pruning: `endT - t < period`, together with `t ≤ endT`). -/
def countInWindow (period endT : ℚ) (instants : List ℚ) : ℕ :=
  (instants.filter (fun t => decide (endT - t < period) && decide (t ≤ endT))).length

/-! ### Cache (`cache.py`) -/

/-- `CacheEntry`: a value plus its absolute expiry instant
(`self.expiry = time.time() + ttl`). -/
structure CacheEntry (α : Type) where
  value : α
  expiry : ℚ

/-- `CacheEntry.is_expired`: `time.time() > self.expiry` (strict). -/
def CacheEntry.isExpired (e : CacheEntry α) (now : ℚ) : Bool :=
  decide (e.expiry < now)

/-- `Cache`: thread-safe LRU cache with TTL.  `entries` mirrors the
`OrderedDict`, least-recently-used first (Python appends at the back and
evicts from the front). -/
structure Cache (α : Type) where
  maxSize : ℕ
  defaultTtl : ℚ
  entries : List (String × CacheEntry α)
  hits : ℕ
  misses : ℕ

def Cache.empty (maxSize : ℕ) (defaultTtl : ℚ) : Cache α :=
  ⟨maxSize, defaultTtl, [], 0, 0⟩

/-- `Cache.get` at logical time `now`: expired entries are deleted and counted
as a miss; a live entry is moved to the back (most recently used) and counted
as a hit; absence is a miss. -/
def Cache.get (c : Cache α) (key : String) (now : ℚ) : Option α × Cache α :=
  match c.entries.find? (fun p => p.1 == key) with
  | some p =>
      if p.2.isExpired now then
        (none, { c with entries := c.entries.filter (fun q => q.1 != key),
                        misses := c.misses + 1 })
      else
        (some p.2.value,
         { c with entries := c.entries.filter (fun q => q.1 != key) ++ [p],
                  hits := c.hits + 1 })
  | none => (none, { c with misses := c.misses + 1 })

/-- The effective TTL used by `Cache.set`: Python's `ttl = ttl or
self.default_ttl` substitutes the default both when `ttl` is `None` and when
it equals `0` (zero is falsy). -/
def Cache.effectiveTtl (c : Cache α) (ttl : Option ℚ) : ℚ :=
  match ttl with
  | none => c.defaultTtl
  | some v => if v = 0 then c.defaultTtl else v

/-- `Cache.set` at logical time `now`: an existing key is deleted first
(re-insertion makes it most recently used); otherwise, at capacity, the
least-recently-used entry (`popitem(last=False)`, i.e. the front) is evicted.
The new entry is appended at the back. -/
def Cache.set (c : Cache α) (key : String) (value : α) (ttl : Option ℚ) (now : ℚ) :
    Cache α :=
  let base :=
    if c.entries.any (fun p => p.1 == key) then
      c.entries.filter (fun p => p.1 != key)
    else if c.maxSize ≤ c.entries.length then
      c.entries.drop 1
    else
      c.entries
  { c with entries := base ++ [(key, ⟨value, now + c.effectiveTtl ttl⟩)] }

/-- `Cache.clear`. -/
def Cache.clear (c : Cache α) : Cache α :=
  { c with entries := [], hits := 0, misses := 0 }

/-- The numeric value of the `hit_rate` local in `Cache.stats`:
`(self._hits / total * 100) if total > 0 else 0`.  The subsequent two-decimal
percent-string rendering is presentation only and is not modelled. -/
def Cache.hitRate (c : Cache α) : ℚ :=
  if 0 < c.hits + c.misses then (c.hits : ℚ) / ((c.hits : ℚ) + (c.misses : ℚ)) * 100
  else 0

/-- The fields reported by `Cache.stats`. -/
structure CacheStats where
  size : ℕ
  maxSize : ℕ
  hits : ℕ
  misses : ℕ
  hitRate : ℚ

def Cache.stats (c : Cache α) : CacheStats :=
  ⟨c.entries.length, c.maxSize, c.hits, c.misses, c.hitRate⟩

/-! ### SHA-256, as invoked by `Cache._make_key` via
`hashlib.sha256(key_str.encode()).hexdigest()`.  Words are naturals reduced
modulo `2^32`. -/

def w32 (n : ℕ) : ℕ := n % 4294967296

def rotr32 (k x : ℕ) : ℕ := w32 ((x >>> k) ||| (x <<< (32 - k)))

def not32 (x : ℕ) : ℕ := x ^^^ 4294967295

def bigSigma0 (x : ℕ) : ℕ := rotr32 2 x ^^^ rotr32 13 x ^^^ rotr32 22 x

def bigSigma1 (x : ℕ) : ℕ := rotr32 6 x ^^^ rotr32 11 x ^^^ rotr32 25 x

def smallSigma0 (x : ℕ) : ℕ := rotr32 7 x ^^^ rotr32 18 x ^^^ (x >>> 3)

def smallSigma1 (x : ℕ) : ℕ := rotr32 17 x ^^^ rotr32 19 x ^^^ (x >>> 10)

def sha256K : List ℕ :=
  [1116352408, 1899447441, 3049323471, 3921009573, 961987163,
   1508970993, 2453635748, 2870763221, 3624381080, 310598401,
   607225278, 1426881987, 1925078388, 2162078206, 2614888103,
   3248222580, 3835390401, 4022224774, 264347078, 604807628,
   770255983, 1249150122, 1555081692, 1996064986, 2554220882,
   2821834349, 2952996808, 3210313671, 3336571891, 3584528711,
   113926993, 338241895, 666307205, 773529912, 1294757372,
   1396182291, 1695183700, 1986661051, 2177026350, 2456956037,
   2730485921, 2820302411, 3259730800, 3345764771, 3516065817,
   3600352804, 4094571909, 275423344, 430227734, 506948616,
   659060556, 883997877, 958139571, 1322822218, 1537002063,
   1747873779, 1955562222, 2024104815, 2227730452, 2361852424,
   2428436474, 2756734187, 3204031479, 3329325298]

def sha256H0 : List ℕ :=
  [1779033703, 3144134277, 1013904242, 2773480762, 1359893119,
   2600822924, 528734635, 1541459225]

/-- One extension step of the message schedule; the list is kept newest-first,
so indices 1, 6, 14, 15 are W[t-2], W[t-7], W[t-15], W[t-16]. -/
def shaExtendStep (w : List ℕ) : List ℕ :=
  w32 (smallSigma1 (w.getD 1 0) + w.getD 6 0 + smallSigma0 (w.getD 14 0) + w.getD 15 0) :: w

/-- The 64-word message schedule of one 16-word block. -/
def messageSchedule (block : List ℕ) : List ℕ :=
  (shaExtendStep^[48] block.reverse).reverse

/-- One compression round; the state is the word list `[a,b,c,d,e,f,g,h]`. -/
def shaRound (st : List ℕ) (k w : ℕ) : List ℕ :=
  match st with
  | [a, b, c, d, e, f, g, h] =>
      let ch := (e &&& f) ^^^ (not32 e &&& g)
      let maj := (a &&& b) ^^^ (a &&& c) ^^^ (b &&& c)
      let t1 := w32 (h + bigSigma1 e + ch + k + w)
      let t2 := w32 (bigSigma0 a + maj)
      [w32 (t1 + t2), a, b, c, w32 (d + t1), e, f, g]
  | _ => st

def compressBlock (h : List ℕ) (block : List ℕ) : List ℕ :=
  let final := (sha256K.zip (messageSchedule block)).foldl
      (fun st kw => shaRound st kw.1 kw.2) h
  (h.zip final).map (fun p => w32 (p.1 + p.2))

/-- Group bytes into big-endian 32-bit words. -/
def bytesToWords : List ℕ → List ℕ
  | b0 :: b1 :: b2 :: b3 :: rest =>
      (b0 * 16777216 + b1 * 65536 + b2 * 256 + b3) :: bytesToWords rest
  | _ => []

/-- Big-endian 64-bit length field. -/
def lenBytes64 (n : ℕ) : List ℕ :=
  [(n >>> 56) % 256, (n >>> 48) % 256, (n >>> 40) % 256, (n >>> 32) % 256,
   (n >>> 24) % 256, (n >>> 16) % 256, (n >>> 8) % 256, n % 256]

/-- SHA-256 padding: `0x80`, zeros to 56 mod 64, then the bit length. -/
def shaPad (msg : List ℕ) : List ℕ :=
  msg ++ 128 :: (List.replicate ((119 - msg.length % 64) % 64) 0 ++ lenBytes64 (8 * msg.length))

def shaBlocks (h : List ℕ) (bytes : List ℕ) : ℕ → List ℕ
  | 0 => h
  | n + 1 => shaBlocks (compressBlock h (bytesToWords (bytes.take 64))) (bytes.drop 64) n

def sha256Words (msg : List ℕ) : List ℕ :=
  let padded := shaPad msg
  shaBlocks sha256H0 padded (padded.length / 64)

def hexDigitChar (n : ℕ) : Char :=
  if n < 10 then Char.ofNat (48 + n) else Char.ofNat (87 + n)

def wordToHex (x : ℕ) : String :=
  String.mk [hexDigitChar ((x >>> 28) % 16), hexDigitChar ((x >>> 24) % 16),
             hexDigitChar ((x >>> 20) % 16), hexDigitChar ((x >>> 16) % 16),
             hexDigitChar ((x >>> 12) % 16), hexDigitChar ((x >>> 8) % 16),
             hexDigitChar ((x >>> 4) % 16), hexDigitChar (x % 16)]

/-- `hashlib.sha256(bytes).hexdigest()`. -/
def sha256hex (msg : List ℕ) : String :=
  String.join ((sha256Words msg).map wordToHex)

/-- UTF-8 encoding of one character (`str.encode()`). -/
def utf8EncodeChar (c : Char) : List ℕ :=
  let n := c.toNat
  if n < 128 then [n]
  else if n < 2048 then [192 + n / 64, 128 + n % 64]
  else if n < 65536 then [224 + n / 4096, 128 + n / 64 % 64, 128 + n % 64]
  else [240 + n / 262144, 128 + n / 4096 % 64, 128 + n / 64 % 64, 128 + n % 64]

def utf8Bytes (s : String) : List ℕ :=
  s.data.foldr (fun c acc => utf8EncodeChar c ++ acc) []

/-- FIPS 180-4 test vector, checking the SHA-256 translation. -/
theorem sha256hex_abc :
    sha256hex (utf8Bytes "abc") =
      "ba7816bf8f01cfea414140de5dae2223b00361a396177a9cb410ff61f20015ad" := by
  decide

/-! ### Cache key construction (`Cache._make_key`, `cache.py` lines 36-43)

`_make_key` serializes `{"args": args, "kwargs": sorted(kwargs.items())}` with
`json.dumps(..., sort_keys=True, default=str)` and hashes the UTF-8 bytes with
SHA-256.  In this program the positional arguments are strings (the resource
id) and the keyword values are strings, integers, or the string-to-string
filters mapping, so the serializer is embedded at those value shapes. -/

/-- The value shapes this program passes as keyword arguments to
`Cache._make_key`. -/
inductive ParamVal where
  | str (s : String)
  | num (n : Int)
  | strMap (fields : List (String × String))
deriving DecidableEq

def hex4 (n : ℕ) : String :=
  String.mk [hexDigitChar ((n >>> 12) % 16), hexDigitChar ((n >>> 8) % 16),
             hexDigitChar ((n >>> 4) % 16), hexDigitChar (n % 16)]

/-- `json.dumps` string escaping with the default `ensure_ascii=True`. -/
def jsonEscapeChar (c : Char) : String :=
  if c = '"' then "\\\""
  else if c = '\\' then "\\\\"
  else if c = '\n' then "\\n"
  else if c = '\t' then "\\t"
  else if c = '\r' then "\\r"
  else if c.toNat = 8 then "\\b"
  else if c.toNat = 12 then "\\f"
  else if c.toNat < 32 then "\\u" ++ hex4 c.toNat
  else if c.toNat < 127 then String.mk [c]
  else if c.toNat < 65536 then "\\u" ++ hex4 c.toNat
  else
    let m := c.toNat - 65536
    "\\u" ++ hex4 (55296 + m / 1024) ++ "\\u" ++ hex4 (56320 + m % 1024)

def jsonQuote (s : String) : String :=
  "\"" ++ String.join (s.data.map jsonEscapeChar) ++ "\""

def joinComma (xs : List String) : String := String.intercalate ", " xs

/-- Lexicographic comparison of code-point sequences: Python's `str <= str`. -/
def charListLe : List Char → List Char → Bool
  | [], _ => true
  | _ :: _, [] => false
  | a :: as, b :: bs =>
      if a.toNat < b.toNat then true
      else if b.toNat < a.toNat then false
      else charListLe as bs

/-- Python's `str` comparison, as used by `sorted` on `kwargs.items()`. -/
def strLe (a b : String) : Prop := charListLe a.data b.data = true

instance (a b : String) : Decidable (strLe a b) := by
  unfold strLe; infer_instance

/-- `sorted(kwargs.items())`: Python sorts the pairs; with distinct keys the
comparison is decided by the keys alone. -/
def sortKwargs (kwargs : List (String × ParamVal)) : List (String × ParamVal) :=
  List.insertionSort (fun a b => strLe a.1 b.1) kwargs

def sortStrPairs (fs : List (String × String)) : List (String × String) :=
  List.insertionSort (fun a b => strLe a.1 b.1) fs

/-- JSON rendering of one keyword value (`sort_keys=True` sorts the keys of a
nested mapping). -/
def dumpParamVal : ParamVal → String
  | .str s => jsonQuote s
  | .num n => toString n
  | .strMap fs => "\x7b" ++
      joinComma ((sortStrPairs fs).map (fun p => jsonQuote p.1 ++ ": " ++ jsonQuote p.2)) ++
      "\x7d"

/-- The exact `key_str` produced by `_make_key`: note the outer keys
`"args" < "kwargs"` are already in `sort_keys=True` order, and each
`(name, value)` pair serializes as a two-element array. -/
def Cache.makeKeyStr (args : List String) (kwargs : List (String × ParamVal)) : String :=
  "\x7b\"args\": [" ++ joinComma (args.map jsonQuote) ++ "], \"kwargs\": [" ++
    joinComma ((sortKwargs kwargs).map
      (fun p => "[" ++ jsonQuote p.1 ++ ", " ++ dumpParamVal p.2 ++ "]")) ++ "]\x7d"

/-- `Cache._make_key`. -/
def Cache.makeKey (args : List String) (kwargs : List (String × ParamVal)) : String :=
  sha256hex (utf8Bytes (Cache.makeKeyStr args kwargs))

/-- Serialization test against CPython: `_make_key("id", a=1, b=2)`. -/
theorem makeKeyStr_example :
    Cache.makeKeyStr ["id"] [("a", .num 1), ("b", .num 2)] =
      "\x7b\"args\": [\"id\"], \"kwargs\": [[\"a\", 1], [\"b\", 2]]\x7d" := by
  decide

/-- Hash test against CPython's `hashlib` on the same input. -/
theorem makeKey_example :
    Cache.makeKey ["id"] [("a", .num 1), ("b", .num 2)] =
      "493dd11e19d2a8b27fe34c66fde54683f40a52844b6999af946dde6c27f2ac70" := by
  decide

/-! ### Request orchestration (`DataGovInClient`, `api_client.py` lines 100-229)

The HTTP transport is an injected oracle giving the outcome of each dispatch
attempt (zero-based).  A successful transport interaction carries the HTTP
status, the body text, and the result of `response.json()` (which may raise,
carrying an exception message).  The payload type is opaque. -/

/-- Outcome of one `self.client.get(...)` attempt, together with the
subsequent `response.json()` behaviour. -/
inductive Attempt (α : Type) where
  | ok (status : ℕ) (body : String) (json : Except String α)
  | timeout (msg : String)
  | netError (msg : String)
  | otherExc (msg : String)

deriving instance DecidableEq for Except

/-- The typed errors of `exceptions.py` that `_make_request`/`get_resource`
can raise (structured payloads instead of formatted messages). -/
inductive ApiException where
  | apiKeyMissing
  | rateLimited
  | resourceNotFound (resourceId : String)
  | apiError (status : ℕ) (message : String)
  | networkError (message : String)
  | invalidParameter (param : String) (message : String)
deriving DecidableEq

/-- The configuration fields of `Config` consumed by the request path. -/
structure OrchConfig where
  apiKey : Option String
  maxRetries : ℕ
  retryDelay : ℚ
  backoffFactor : ℚ
  defaultLimit : ℕ
  maxLimit : ℕ

/-- The retry loop of `_make_request` (lines 146-194).  Arguments: attempts
remaining, the zero-based index of the next attempt, and `last_exception`.
Returns the outcome, the number of transport invocations performed, and the
backoff sleep durations in order (`retry_delay * backoff_factor ** attempt`,
slept only when attempts remain). -/
def requestLoop (cfg : OrchConfig) (transport : ℕ → Attempt α) (resourceId : String) :
    ℕ → ℕ → Option ApiException → Except ApiException α × ℕ × List ℚ
  | 0, _, lastExc =>
      (.error (lastExc.getD (.networkError "All retry attempts failed")), 0, [])
  | n + 1, i, _ =>
      let retryWith := fun (exc : ApiException) =>
        let rest := requestLoop cfg transport resourceId n (i + 1) (some exc)
        (rest.1, rest.2.1 + 1,
          (if 0 < n then [cfg.retryDelay * cfg.backoffFactor ^ i] else []) ++ rest.2.2)
      match transport i with
      | .ok status body json =>
          if status = 404 then (.error (.resourceNotFound resourceId), 1, [])
          else if status = 429 then (.error .rateLimited, 1, [])
          else if 400 ≤ status then (.error (.apiError status body), 1, [])
          else
            match json with
            | .ok data => (.ok data, 1, [])
            | .error msg => retryWith (.apiError 500 ("Unexpected error: " ++ msg))
      | .timeout msg => retryWith (.networkError ("Request timeout: " ++ msg))
      | .netError msg => retryWith (.networkError ("Network error: " ++ msg))
      | .otherExc msg => retryWith (.apiError 500 ("Unexpected error: " ++ msg))

/-- `params["api-key"] = ...`: dict assignment replaces in place or appends. -/
def setParam (params : List (String × ParamVal)) (k : String) (v : ParamVal) :
    List (String × ParamVal) :=
  if params.any (fun p => p.1 == k) then
    params.map (fun p => if p.1 == k then (p.1, v) else p)
  else params ++ [(k, v)]

/-- `params.setdefault(...)`. -/
def setDefault (params : List (String × ParamVal)) (k : String) (v : ParamVal) :
    List (String × ParamVal) :=
  if params.any (fun p => p.1 == k) then params else params ++ [(k, v)]

/-- The parameter dictionary after lines 126-128: inject the API key and the
default `format=json`. -/
def authParams (key : String) (params : List (String × ParamVal)) :
    List (String × ParamVal) :=
  setDefault (setParam params "api-key" (.str key)) "format" (.str "json")

/-- Observable result of one `_make_request`/`get_resource` call: the outcome,
the final cache and rate-limiter states, the number of transport invocations,
and the backoff sleeps performed. -/
structure FetchResult (α : Type) where
  outcome : Except ApiException α
  cache : Option (Cache α)
  limiter : RateLimiter
  invocations : ℕ
  sleeps : List ℚ

/-- `DataGovInClient._make_request` at logical time `now`.  The cache `set`
after a successful dispatch happens at the post-sleep clock value
(admission instant plus the backoff sleeps performed so far). -/
def makeRequest (cfg : OrchConfig) (cache : Option (Cache α)) (rl : RateLimiter)
    (transport : ℕ → Attempt α) (resourceId : String)
    (params0 : List (String × ParamVal)) (useCache : Bool) (now : ℚ) :
    FetchResult α :=
  match cfg.apiKey with
  | none => ⟨.error .apiKeyMissing, cache, rl, 0, []⟩
  | some key =>
    if key = "" then ⟨.error .apiKeyMissing, cache, rl, 0, []⟩ else
      let params := authParams key params0
      match useCache, cache with
      | true, some c =>
          let ck := Cache.makeKey [resourceId] params
          match c.get ck now with
          | (some v, c2) => ⟨.ok v, some c2, rl, 0, []⟩
          | (none, c2) =>
              let w := rl.waitIfNeeded now
              let r := requestLoop cfg transport resourceId (cfg.maxRetries + 1) 0 none
              match r.1 with
              | .ok data =>
                  ⟨.ok data, some (c2.set ck data none (w.2 + r.2.2.sum)), w.1, r.2.1, r.2.2⟩
              | .error e => ⟨.error e, some c2, w.1, r.2.1, r.2.2⟩
      | _, _ =>
          let w := rl.waitIfNeeded now
          let r := requestLoop cfg transport resourceId (cfg.maxRetries + 1) 0 none
          ⟨r.1, cache, w.1, r.2.1, r.2.2⟩

/-- `DataGovInClient.get_resource`: `limit or default_limit` (zero is falsy),
the `max_limit` guard, the parameter dictionary `offset`/`limit`/optionally
`filters` (skipped when falsy, i.e. absent or empty), then `_make_request`
with caching on. -/
def getResource (cfg : OrchConfig) (cache : Option (Cache α)) (rl : RateLimiter)
    (transport : ℕ → Attempt α) (resourceId : String)
    (filters : Option (List (String × String))) (offset : Int) (limit : Option ℕ)
    (now : ℚ) : FetchResult α :=
  let lim := match limit with
    | none => cfg.defaultLimit
    | some l => if l = 0 then cfg.defaultLimit else l
  if cfg.maxLimit < lim then
    ⟨.error (.invalidParameter "limit" ("Cannot exceed " ++ toString cfg.maxLimit)),
     cache, rl, 0, []⟩
  else
    let params := [("offset", ParamVal.num offset), ("limit", ParamVal.num (lim : Int))]
    let params := match filters with
      | some fs => if fs.isEmpty then params else params ++ [("filters", .strMap fs)]
      | none => params
    makeRequest cfg cache rl transport resourceId params true now

/-! ### Claims about the rate limiter -/

/-- Claim C1 is false as stated: after a sleep the limiter resets its history
(`self.calls = []`), forgetting admissions that are still inside the trailing
window.  Concrete sequential trace (`max_calls = 2`, `period = 100`): arrivals
at 0, 90, 95 and 101 are admitted at 0, 90, 100 and 101 (the third call
sleeps 5 and resets), so the trailing window of length 100 ending at 101
contains the three admissions 90, 100, 101 > `max_calls`.  Each arrival is at
or after the previous admission, so the trace is realizable by one caller. -/
theorem c1_trailing_window_counterexample :
    ((RateLimiter.mk 2 100 []).run [0, 90, 95, 101]).2 = [0, 90, 100, 101] ∧
    (RateLimiter.mk 2 100 []).maxCalls <
      countInWindow 100 101 ((RateLimiter.mk 2 100 []).run [0, 90, 95, 101]).2 := by
  decide

/-- Claim C1 (amended): what `wait_if_needed` does guarantee is the spec's
data-model invariant: after it returns, the count of calls *recorded in the
limiter's state* (all within the trailing `period`) never exceeds
`max_calls` — enforced by sleeping-and-resetting or by pruning.  The bound on
all admitted instants over arbitrary trailing windows does not hold (see the
counterexample). -/
theorem c1_recorded_calls_bounded (rl : RateLimiter) (now : ℚ)
    (h : 0 < rl.maxCalls) :
    ((rl.waitIfNeeded now).1.calls.length ≤ rl.maxCalls) := by
  have hmem : ∀ t ∈ rl.calls.filter (fun t => decide (now - t < rl.period)),
      now - t < rl.period := by
    intro t ht
    simpa using (List.mem_filter.mp ht).2
  unfold RateLimiter.waitIfNeeded
  by_cases hfull :
      rl.maxCalls ≤ (rl.calls.filter (fun t => decide (now - t < rl.period))).length
  · have hne : rl.calls.filter (fun t => decide (now - t < rl.period)) ≠ [] := by
      intro hnil
      rw [hnil] at hfull
      simp at hfull
      omega
    have hhead : (rl.calls.filter (fun t => decide (now - t < rl.period))).headD 0 ∈
        rl.calls.filter (fun t => decide (now - t < rl.period)) := by
      cases hc : rl.calls.filter (fun t => decide (now - t < rl.period)) with
      | nil => exact absurd hc hne
      | cons a l => simp
    have hlt : now - (rl.calls.filter (fun t => decide (now - t < rl.period))).headD 0 <
        rl.period := hmem _ hhead
    have hpos : 0 < rl.period -
        (now - (rl.calls.filter (fun t => decide (now - t < rl.period))).headD 0) := by
      linarith
    simp only [hfull, if_true, hpos]
    simpa using h
  · simp only [hfull, if_false]
    simp only [List.length_append, List.length_cons, List.length_nil]
    omega

/-- Witness for the amended C1 at a concrete full window. -/
theorem c1_recorded_calls_bounded_witness :
    ((RateLimiter.mk 2 100 [0, 90]).waitIfNeeded 95).1.calls.length ≤ 2 :=
  c1_recorded_calls_bounded (RateLimiter.mk 2 100 [0, 90]) 95 (by decide)

/-! ### Claims about the cache -/

/-- Claim C2 (code bug): `Cache.set` computes `ttl = ttl or self.default_ttl`,
and Python's `0` is falsy, so an entry stored with `ttl=0` silently receives
the default TTL.  With `default_ttl = 60`, after `set("key1", "value1", ttl=0)`
at time 0 the `get` at time 1 returns the value and counts a *hit* — the
claim (and the repository's own test `test_cache_custom_ttl`) requires
absence and a miss. -/
theorem c2_ttl_zero_code_eval :
    ((((Cache.empty 10 60 : Cache String).set "key1" "value1" (some 0) 0).get
        "key1" 1).1 = some "value1") ∧
    ((((Cache.empty 10 60 : Cache String).set "key1" "value1" (some 0) 0).get
        "key1" 1).2.hits = 1) := by
  decide

/-- State used for the C9 counterexample: one stored key, then one hit and one
miss, exactly as in `test_cache_stats`. -/
def statsState : Cache String :=
  ((((Cache.empty 10 60).set "key1" "value1" none 0).get "key1" 1).2.get "key2" 1).2

/-- Claim C9 is false as stated: `stats` computes
`hit_rate = hits / total * 100` — a *percentage* — so after one hit and one
miss it reports 50, not `hits / (hits + misses) = 1/2`. -/
theorem c9_hit_rate_counterexample :
    (statsState.stats.hits = 1 ∧ statsState.stats.misses = 1) ∧
    statsState.stats.hitRate = 50 ∧ ((50 : ℚ) ≠ 1 / 2) := by
  decide

/-- Claim C9 (amended): `stats()` reports `hitRate` equal to
`100 * hits / (hits + misses)` — the hit rate expressed as a percentage
(subsequently rendered as a two-decimal percent string) — and 0 when no
lookups have occurred. -/
theorem c9_hit_rate_percentage (c : Cache α) :
    (c.hits + c.misses = 0 → c.stats.hitRate = 0) ∧
    (0 < c.hits + c.misses →
      c.stats.hitRate = 100 * (c.hits : ℚ) / ((c.hits : ℚ) + (c.misses : ℚ))) := by
  constructor
  · intro h
    have h1 : c.hits + c.misses = 0 := h
    simp [Cache.stats, Cache.hitRate, h1]
  · intro h
    simp only [Cache.stats, Cache.hitRate, if_pos h]
    ring

/-- Witness for the amended C9 at the concrete one-hit-one-miss state. -/
theorem c9_hit_rate_percentage_witness :
    statsState.stats.hitRate =
      100 * (statsState.hits : ℚ) / ((statsState.hits : ℚ) + (statsState.misses : ℚ)) :=
  (c9_hit_rate_percentage statsState).2 (by decide)

/-- On `set` of an absent key at (or beyond) capacity, the surviving keys are
exactly the old keys minus the front one (the least recently used), plus the
new key at the back. -/
lemma cache_set_evicts_head (c : Cache α) (key : String) (v : α) (ttl : Option ℚ)
    (now : ℚ) (hKey : c.entries.any (fun p => p.1 == key) = false)
    (hLen : c.maxSize ≤ c.entries.length) :
    (c.set key v ttl now).entries.map Prod.fst =
      (c.entries.map Prod.fst).drop 1 ++ [key] := by
  unfold Cache.set
  simp only [hKey, Bool.false_eq_true, if_false, if_pos hLen]
  simp [List.map_append, List.map_drop]

/-- `set` never grows the cache beyond `max_size` (for positive capacity). -/
lemma cache_set_size_le (c : Cache α) (key : String) (v : α) (ttl : Option ℚ)
    (now : ℚ) (hLen : c.entries.length ≤ c.maxSize) (hPos : 1 ≤ c.maxSize) :
    (c.set key v ttl now).entries.length ≤ c.maxSize := by
  unfold Cache.set
  by_cases hk : c.entries.any (fun p => p.1 == key) = true
  · simp only [hk, if_true, List.length_append, List.length_cons, List.length_nil]
    have hstrict : (c.entries.filter (fun p => p.1 != key)).length < c.entries.length := by
      apply List.length_filter_lt_length_iff_exists.mpr
      obtain ⟨p, hp, hpk⟩ := List.any_eq_true.mp hk
      exact ⟨p, hp, by simp_all⟩
    omega
  · simp only [Bool.not_eq_true] at hk
    simp only [hk, Bool.false_eq_true, if_false]
    by_cases hfull : c.maxSize ≤ c.entries.length
    · simp only [if_pos hfull, List.length_append, List.length_drop,
        List.length_cons, List.length_nil]
      omega
    · simp only [if_neg hfull, List.length_append, List.length_cons, List.length_nil]
      omega

/-- A `get` hit on `k` yields the stored value and moves `k`'s pair to the
back of the recency list; the other fields are untouched. -/
lemma cache_get_hit (c : Cache α) (k : String) (now : ℚ)
    (hHit : ((c.get k now).1.isSome : Prop)) :
    ∃ p, c.entries.find? (fun q => q.1 == k) = some p ∧ p.1 = k ∧
      p.2.isExpired now = false ∧
      (c.get k now).2 = { c with entries := c.entries.filter (fun q => q.1 != k) ++ [p],
                                 hits := c.hits + 1 } ∧
      (c.get k now).1 = some p.2.value := by
  unfold Cache.get at *
  cases hf : c.entries.find? (fun q => q.1 == k) with
  | none => rw [hf] at hHit; simp at hHit
  | some p =>
      rw [hf] at hHit
      by_cases hex : p.2.isExpired now = true
      · simp [hex] at hHit
      · refine ⟨p, rfl, ?_, by simpa using hex, ?_, ?_⟩
        · have := List.find?_some hf
          simpa using this
        · simp [Bool.not_eq_true] at hex
          simp [hex]
        · simp [Bool.not_eq_true] at hex
          simp [hex]

/-- A `get` of `k` just before an eviction-triggering `set` of a fresh key
protects `k`: `k` is still present afterwards. -/
lemma cache_get_protects (c : Cache α) (k newKey : String) (v : α) (ttl : Option ℚ)
    (now now2 : ℚ) (hHit : ((c.get k now).1.isSome : Prop)) (hMax : 2 ≤ c.maxSize)
    (hNew : ((c.get k now).2.entries.any (fun p => p.1 == newKey)) = false) :
    k ∈ (((c.get k now).2.set newKey v ttl now2).entries.map Prod.fst) := by
  obtain ⟨p, hf, hpk, hex, hc2, hval⟩ := cache_get_hit c k now hHit
  rw [hc2] at hNew ⊢
  unfold Cache.set
  simp only [hNew, Bool.false_eq_true, if_false]
  by_cases hfull : c.maxSize ≤ (c.entries.filter (fun q => q.1 != k) ++ [p]).length
  · simp only [if_pos hfull]
    have hflen : 1 ≤ (c.entries.filter (fun q => q.1 != k)).length := by
      have := hfull
      simp only [List.length_append, List.length_cons, List.length_nil] at this
      omega
    rw [List.drop_append_of_le_length hflen]
    have hp1 : p ∈ (c.entries.filter (fun q => q.1 != k)).drop 1 ++ [p] :=
      List.mem_append_right _ (List.mem_singleton_self p)
    exact List.mem_map.mpr ⟨p, List.mem_append_left _ hp1, hpk⟩
  · simp only [if_neg hfull]
    have hp1 : p ∈ c.entries.filter (fun q => q.1 != k) ++ [p] :=
      List.mem_append_right _ (List.mem_singleton_self p)
    exact List.mem_map.mpr ⟨p, List.mem_append_left _ hp1, hpk⟩

/-- Claim C6: for a cache holding exactly `maxSize` entries, `set` of a fresh
key evicts exactly the least-recently-accessed (front) entry; the size never
exceeds `maxSize`; and a `get` of a key just before the eviction-triggering
`set` protects that key from being the evicted one. -/
theorem c6_lru_eviction :
    (∀ (c : Cache α) (key : String) (v : α) (ttl : Option ℚ) (now : ℚ),
       c.entries.any (fun p => p.1 == key) = false →
       c.entries.length = c.maxSize →
       (c.set key v ttl now).entries.map Prod.fst =
         (c.entries.map Prod.fst).drop 1 ++ [key]) ∧
    (∀ (c : Cache α) (key : String) (v : α) (ttl : Option ℚ) (now : ℚ),
       c.entries.length ≤ c.maxSize → 1 ≤ c.maxSize →
       (c.set key v ttl now).entries.length ≤ c.maxSize) ∧
    (∀ (c : Cache α) (k newKey : String) (v : α) (ttl : Option ℚ) (now now2 : ℚ),
       ((c.get k now).1.isSome : Prop) → 2 ≤ c.maxSize →
       ((c.get k now).2.entries.any (fun p => p.1 == newKey)) = false →
       k ∈ (((c.get k now).2.set newKey v ttl now2).entries.map Prod.fst)) := by
  refine ⟨?_, ?_, ?_⟩
  · intro c key v ttl now hKey hLen
    exact cache_set_evicts_head c key v ttl now hKey (le_of_eq hLen.symm)
  · intro c key v ttl now hLen hPos
    exact cache_set_size_le c key v ttl now hLen hPos
  · intro c k newKey v ttl now now2 hHit hMax hNew
    exact cache_get_protects c k newKey v ttl now now2 hHit hMax hNew

/-- State used by the C6 witness: three live keys inserted in order, as in
`test_cache_lru_ordering`. -/
def lruState : Cache String :=
  (((Cache.empty 3 60).set "key1" "value1" none 0).set "key2" "value2" none 0).set
    "key3" "value3" none 0

/-- Witness for C6 at the concrete states of the repository's LRU tests:
inserting `key4` into the full cache drops `key1` and appends `key4`; the
size stays within bounds; and touching `key1` via `get` first keeps `key1`
alive through the eviction caused by inserting `key4`. -/
theorem c6_lru_eviction_witness :
    ((lruState.set "key4" "value4" none 0).entries.map Prod.fst =
      (lruState.entries.map Prod.fst).drop 1 ++ ["key4"]) ∧
    ((lruState.set "key4" "value4" none 0).entries.length ≤ lruState.maxSize) ∧
    ("key1" ∈ (((lruState.get "key1" 1).2.set "key4" "value4" none 1).entries.map
        Prod.fst)) :=
  ⟨(c6_lru_eviction.1) lruState "key4" "value4" none 0 (by decide) (by decide),
   (c6_lru_eviction.2.1) lruState "key4" "value4" none 0 (by decide) (by decide),
   (c6_lru_eviction.2.2) lruState "key1" "key4" "value4" none 1 1 (by decide)
     (by decide) (by decide)⟩

/-! ### Order lemmas for the key comparator (claim C8) -/

lemma char_toNat_inj {a b : Char} (h : a.toNat = b.toNat) : a = b :=
  Char.ext (UInt32.toNat.inj h)

lemma charListLe_total : ∀ as bs : List Char,
    charListLe as bs = true ∨ charListLe bs as = true := by
  intro as
  induction as with
  | nil => intro bs; left; rfl
  | cons a as ih =>
      intro bs
      cases bs with
      | nil => right; rfl
      | cons b bs =>
          rcases Nat.lt_trichotomy a.toNat b.toNat with hlt | heq | hgt
          · left
            simp [charListLe, hlt]
          · rcases ih bs with h | h
            · left
              simp [charListLe, heq, h]
            · right
              simp [charListLe, heq.symm, h]
          · right
            simp [charListLe, hgt]

lemma charListLe_trans : ∀ as bs cs : List Char,
    charListLe as bs = true → charListLe bs cs = true → charListLe as cs = true := by
  intro as
  induction as with
  | nil => intro bs cs _ _; rfl
  | cons a as ih =>
      intro bs cs hab hbc
      cases bs with
      | nil => simp [charListLe] at hab
      | cons b bs =>
          cases cs with
          | nil => simp [charListLe] at hbc
          | cons c cs =>
              simp only [charListLe] at hab hbc ⊢
              by_cases h1 : a.toNat < b.toNat
              · by_cases h2 : b.toNat < c.toNat
                · have hac : a.toNat < c.toNat := by omega
                  simp [hac]
                · by_cases h4 : c.toNat < b.toNat
                  · simp [h2, h4] at hbc
                  · have hac : a.toNat < c.toNat := by omega
                    simp [hac]
              · by_cases h3 : b.toNat < a.toNat
                · simp [h1, h3] at hab
                · have hab2 : charListLe as bs = true := by simpa [h1, h3] using hab
                  by_cases h2 : b.toNat < c.toNat
                  · have hac : a.toNat < c.toNat := by omega
                    simp [hac]
                  · by_cases h4 : c.toNat < b.toNat
                    · simp [h2, h4] at hbc
                    · have hbc2 : charListLe bs cs = true := by simpa [h2, h4] using hbc
                      have hac : ¬ a.toNat < c.toNat := by omega
                      have hca : ¬ c.toNat < a.toNat := by omega
                      simp only [if_neg hac, if_neg hca]
                      exact ih bs cs hab2 hbc2

lemma charListLe_antisymm : ∀ as bs : List Char,
    charListLe as bs = true → charListLe bs as = true → as = bs := by
  intro as
  induction as with
  | nil =>
      intro bs _ hba
      cases bs with
      | nil => rfl
      | cons b bs => simp [charListLe] at hba
  | cons a as ih =>
      intro bs hab hba
      cases bs with
      | nil => simp [charListLe] at hab
      | cons b bs =>
          simp only [charListLe] at hab hba
          by_cases h1 : a.toNat < b.toNat <;> by_cases h2 : b.toNat < a.toNat
          · omega
          · simp [h1, h2] at hba
          · simp [h1, h2] at hab
          · have heq : a = b := char_toNat_inj (by omega)
            simp [h1, h2] at hab hba
            rw [heq, ih bs hab hba]

lemma strLe_antisymm {a b : String} (hab : strLe a b) (hba : strLe b a) : a = b := by
  cases a with
  | mk da =>
      cases b with
      | mk db =>
          have := charListLe_antisymm da db hab hba
          rw [this]

instance : IsTotal (String × ParamVal) (fun a b => strLe a.1 b.1) :=
  ⟨fun a b => charListLe_total a.1.data b.1.data⟩

instance : IsTrans (String × ParamVal) (fun a b => strLe a.1 b.1) :=
  ⟨fun _ _ _ h1 h2 => charListLe_trans _ _ _ h1 h2⟩

instance : IsAntisymm (String × ParamVal) (fun a b => strLe a.1 b.1 ∧ a.1 ≠ b.1) :=
  ⟨fun _ _ h1 h2 => absurd (strLe_antisymm h1.1 h2.1) h1.2⟩

/-- Two permuted parameter dictionaries (distinct names, as in any Python
`dict`) have the same sorted item list. -/
lemma sortKwargs_eq_of_perm (kw1 kw2 : List (String × ParamVal))
    (hp : kw1.Perm kw2) (hnd : (kw1.map Prod.fst).Nodup) :
    sortKwargs kw1 = sortKwargs kw2 := by
  have hps : (sortKwargs kw1).Perm (sortKwargs kw2) :=
    (List.perm_insertionSort _ kw1).trans
      (hp.trans (List.perm_insertionSort _ kw2).symm)
  have hs1 : (sortKwargs kw1).Sorted (fun a b => strLe a.1 b.1) :=
    List.sorted_insertionSort _ kw1
  have hs2 : (sortKwargs kw2).Sorted (fun a b => strLe a.1 b.1) :=
    List.sorted_insertionSort _ kw2
  have hnd1 : ((sortKwargs kw1).map Prod.fst).Nodup :=
    (((List.perm_insertionSort _ kw1).map Prod.fst).nodup_iff).mpr hnd
  have hnd2 : ((sortKwargs kw2).map Prod.fst).Nodup :=
    (((List.perm_insertionSort _ kw2).map Prod.fst).nodup_iff).mpr
      ((hp.map Prod.fst).nodup_iff.mp hnd)
  have hne1 : (sortKwargs kw1).Pairwise (fun a b => a.1 ≠ b.1) :=
    List.pairwise_map.mp hnd1
  have hne2 : (sortKwargs kw2).Pairwise (fun a b => a.1 ≠ b.1) :=
    List.pairwise_map.mp hnd2
  exact List.eq_of_perm_of_sorted hps (hs1.and hne1) (hs2.and hne2)

/-- Claim C8: `_make_key` is deterministic and independent of parameter
insertion order — permuted parameter dictionaries (distinct names) give equal
keys — and the spec's concrete example keys behave as stated:
`makeKey(id, a=1, b=2) = makeKey(id, b=2, a=1) ≠ makeKey(id, a=1, b=3)`. -/
theorem c8_key_order_independence :
    (∀ (rid : String) (kw1 kw2 : List (String × ParamVal)),
        kw1.Perm kw2 → (kw1.map Prod.fst).Nodup →
        Cache.makeKey [rid] kw1 = Cache.makeKey [rid] kw2) ∧
    Cache.makeKey ["id"] [("a", .num 1), ("b", .num 2)] =
      Cache.makeKey ["id"] [("b", .num 2), ("a", .num 1)] ∧
    Cache.makeKey ["id"] [("a", .num 1), ("b", .num 2)] ≠
      Cache.makeKey ["id"] [("a", .num 1), ("b", .num 3)] := by
  refine ⟨?_, ?_, ?_⟩
  · intro rid kw1 kw2 hp hnd
    unfold Cache.makeKey Cache.makeKeyStr
    rw [sortKwargs_eq_of_perm kw1 kw2 hp hnd]
  · decide
  · decide

/-- Witness for C8's universal part at a concrete transposition. -/
theorem c8_key_order_independence_witness :
    Cache.makeKey ["r"] [("x", ParamVal.num 1), ("y", ParamVal.num 2)] =
      Cache.makeKey ["r"] [("y", ParamVal.num 2), ("x", ParamVal.num 1)] :=
  c8_key_order_independence.1 "r" [("x", ParamVal.num 1), ("y", ParamVal.num 2)]
    [("y", ParamVal.num 2), ("x", ParamVal.num 1)]
    (List.Perm.swap ("y", ParamVal.num 2) ("x", ParamVal.num 1) [])
    (by decide)

/-! ### Claims about the dispatch loop -/

/-- The retry-path classifier: when a dispatch attempt takes one of the
`except` arms that record `last_exception` and continue the loop, this is the
exception recorded (timeouts and transport failures as `NetworkError`; any
other in-loop exception — e.g. a `response.json()` decode failure on a
non-error status — wrapped as `APIError(500, ...)`).  `none` when the attempt
returns successfully or raises one of the fatal typed errors. -/
def Attempt.retryExc : Attempt α → Option ApiException
  | .timeout m => some (.networkError ("Request timeout: " ++ m))
  | .netError m => some (.networkError ("Network error: " ++ m))
  | .otherExc m => some (.apiError 500 ("Unexpected error: " ++ m))
  | .ok s _ (.error m) =>
      if s = 404 ∨ s = 429 ∨ 400 ≤ s then none
      else some (.apiError 500 ("Unexpected error: " ++ m))
  | .ok _ _ (.ok _) => none

/-- One step of the loop on a retryable attempt: record the exception, sleep
`retry_delay * backoff_factor ** attempt` when attempts remain, and continue. -/
lemma requestLoop_retry_step (cfg : OrchConfig) (transport : ℕ → Attempt α)
    (rid : String) (n i : ℕ) (last : Option ApiException) (e : ApiException)
    (h : (transport i).retryExc = some e) :
    requestLoop cfg transport rid (n + 1) i last =
      ((requestLoop cfg transport rid n (i + 1) (some e)).1,
       (requestLoop cfg transport rid n (i + 1) (some e)).2.1 + 1,
       (if 0 < n then [cfg.retryDelay * cfg.backoffFactor ^ i] else []) ++
         (requestLoop cfg transport rid n (i + 1) (some e)).2.2) := by
  cases ht : transport i with
  | ok s b j =>
      cases j with
      | ok d => rw [ht] at h; simp [Attempt.retryExc] at h
      | error m =>
          rw [ht] at h
          simp only [Attempt.retryExc] at h
          by_cases hs : s = 404 ∨ s = 429 ∨ 400 ≤ s
          · simp [hs] at h
          · rw [if_neg hs] at h
            obtain rfl := Option.some_inj.mp h
            push_neg at hs
            obtain ⟨h404, h429, h400⟩ := hs
            simp [requestLoop, ht, h404, h429, Nat.not_le.mpr h400]
  | timeout m =>
      rw [ht] at h
      simp only [Attempt.retryExc] at h
      obtain rfl := Option.some_inj.mp h
      simp [requestLoop, ht]
  | netError m =>
      rw [ht] at h
      simp only [Attempt.retryExc] at h
      obtain rfl := Option.some_inj.mp h
      simp [requestLoop, ht]
  | otherExc m =>
      rw [ht] at h
      simp only [Attempt.retryExc] at h
      obtain rfl := Option.some_inj.mp h
      simp [requestLoop, ht]

/-- When every attempt is retryable, the loop performs all `n + 1` attempts,
sleeps the exponential-backoff sequence, and surfaces the exception of the
last attempt. -/
lemma requestLoop_all_retryable (cfg : OrchConfig) (transport : ℕ → Attempt α)
    (rid : String) (e : ℕ → ApiException)
    (h : ∀ j, (transport j).retryExc = some (e j)) :
    ∀ n i last, requestLoop cfg transport rid (n + 1) i last =
      (.error (e (i + n)), n + 1,
       (List.range n).map (fun j => cfg.retryDelay * cfg.backoffFactor ^ (i + j))) := by
  intro n
  induction n with
  | zero =>
      intro i last
      rw [requestLoop_retry_step cfg transport rid 0 i last (e i) (h i)]
      simp [requestLoop]
  | succ m ih =>
      intro i last
      rw [requestLoop_retry_step cfg transport rid (m + 1) i last (e i) (h i)]
      rw [ih (i + 1) (some (e i))]
      refine Prod.ext ?_ (Prod.ext ?_ ?_)
      · simp only []
        rw [show i + 1 + m = i + (m + 1) by omega]
      · simp
      · simp only [Nat.zero_lt_succ, if_pos, List.range_succ_eq_map, List.map_cons,
          List.map_map, List.singleton_append]
        rw [show i + 0 = i by omega]
        refine congrArg (fun l => cfg.retryDelay * cfg.backoffFactor ^ i :: l) ?_
        refine List.map_congr_left ?_
        intro j hj
        simp only [Function.comp]
        rw [show i + 1 + j = i + (j + 1) by omega]

/-- Claim C4: when every dispatch attempt fails with a timeout or
transport-level failure (the attempts whose recorded exception is a
`NetworkError`), the transport is invoked exactly `max_retries + 1` times and
the call fails with the `NetworkError` recorded on the last attempt. -/
theorem c4_retry_exhaustion (cfg : OrchConfig) (rl : RateLimiter)
    (transport : ℕ → Attempt α) (rid : String) (params : List (String × ParamVal))
    (now : ℚ) (key : String) (em : ℕ → String)
    (hk : cfg.apiKey = some key) (hk2 : key ≠ "")
    (ht : ∀ j, (transport j).retryExc = some (.networkError (em j))) :
    (makeRequest cfg none rl transport rid params true now).invocations =
      cfg.maxRetries + 1 ∧
    (makeRequest cfg none rl transport rid params true now).outcome =
      .error (.networkError (em cfg.maxRetries)) := by
  simp only [makeRequest, hk, if_neg hk2]
  rw [requestLoop_all_retryable cfg transport rid (fun j => .networkError (em j)) ht
    cfg.maxRetries 0 none]
  simp

/-- Witness for C4: an always-timing-out stub with `max_retries = 2` is
invoked exactly 3 times and surfaces the timeout as `NetworkError`. -/
theorem c4_retry_exhaustion_witness :
    (makeRequest (OrchConfig.mk (some "k") 2 1 2 10 100) none (RateLimiter.mk 100 60 [])
        (fun _ => Attempt.timeout "t") "res" [] true 0 : FetchResult String).invocations =
      3 ∧
    (makeRequest (OrchConfig.mk (some "k") 2 1 2 10 100) none (RateLimiter.mk 100 60 [])
        (fun _ => Attempt.timeout "t") "res" [] true 0 : FetchResult String).outcome =
      .error (.networkError "Request timeout: t") :=
  c4_retry_exhaustion (OrchConfig.mk (some "k") 2 1 2 10 100) (RateLimiter.mk 100 60 [])
    (fun _ => Attempt.timeout "t") "res" [] 0 "k" (fun _ => "Request timeout: t")
    rfl (by decide) (fun _ => rfl)

/-- Claim C5: a dispatch attempt answered with HTTP 404, 429, or any other
status ≥ 400 aborts `fetch` immediately with the corresponding typed error
(`ResourceNotFound`, `RateLimited`, `APIError(status, body)`), the transport
having been invoked exactly once. -/
theorem c5_fatal_status (cfg : OrchConfig) (rl : RateLimiter)
    (transport : ℕ → Attempt α) (rid : String) (params : List (String × ParamVal))
    (now : ℚ) (key : String) (s : ℕ) (b : String) (j : Except String α)
    (hk : cfg.apiKey = some key) (hk2 : key ≠ "") (h0 : transport 0 = .ok s b j) :
    (s = 404 →
      (makeRequest cfg none rl transport rid params true now).outcome =
        .error (.resourceNotFound rid) ∧
      (makeRequest cfg none rl transport rid params true now).invocations = 1) ∧
    (s = 429 →
      (makeRequest cfg none rl transport rid params true now).outcome =
        .error .rateLimited ∧
      (makeRequest cfg none rl transport rid params true now).invocations = 1) ∧
    (400 ≤ s → s ≠ 404 → s ≠ 429 →
      (makeRequest cfg none rl transport rid params true now).outcome =
        .error (.apiError s b) ∧
      (makeRequest cfg none rl transport rid params true now).invocations = 1) := by
  refine ⟨?_, ?_, ?_⟩
  · intro hs
    subst hs
    constructor <;> simp [makeRequest, hk, hk2, requestLoop, h0]
  · intro hs
    subst hs
    constructor <;> simp [makeRequest, hk, hk2, requestLoop, h0]
  · intro h400 h404 h429
    constructor <;> simp [makeRequest, hk, hk2, requestLoop, h0, h404, h429, h400]

/-- Witness for C5: a stub answering 404 for resource `missing` makes `fetch`
fail with `ResourceNotFound` after exactly one invocation (no retry). -/
theorem c5_fatal_status_witness :
    ((makeRequest (OrchConfig.mk (some "k") 2 1 2 10 100) none (RateLimiter.mk 100 60 [])
        (fun _ => Attempt.ok 404 "" (Except.error "HTTP 404")) "missing" [] true 0 :
        FetchResult String).outcome = .error (.resourceNotFound "missing") ∧
      (makeRequest (OrchConfig.mk (some "k") 2 1 2 10 100) none (RateLimiter.mk 100 60 [])
        (fun _ => Attempt.ok 404 "" (Except.error "HTTP 404")) "missing" [] true 0 :
        FetchResult String).invocations = 1) :=
  (c5_fatal_status (OrchConfig.mk (some "k") 2 1 2 10 100) (RateLimiter.mk 100 60 [])
      (fun _ => Attempt.ok 404 "" (Except.error "HTTP 404")) "missing" [] 0 "k" 404 ""
      (Except.error "HTTP 404") rfl (by decide) rfl).1 rfl

/-- Claim C7: in the retry loop, the sleep before the retry with zero-based
retry index `i` lasts `retry_delay * backoff_factor ^ i` — under an
always-retryable transport the recorded sleeps are exactly that sequence. -/
theorem c7_backoff_sequence (cfg : OrchConfig) (rl : RateLimiter)
    (transport : ℕ → Attempt α) (rid : String) (params : List (String × ParamVal))
    (now : ℚ) (key : String) (e : ℕ → ApiException)
    (hk : cfg.apiKey = some key) (hk2 : key ≠ "")
    (ht : ∀ j, (transport j).retryExc = some (e j)) :
    (makeRequest cfg none rl transport rid params true now).sleeps =
      (List.range cfg.maxRetries).map
        (fun j => cfg.retryDelay * cfg.backoffFactor ^ j) := by
  simp only [makeRequest, hk, if_neg hk2]
  rw [requestLoop_all_retryable cfg transport rid e ht cfg.maxRetries 0 none]
  simp

/-- Witness for C7: with `retry_delay = 1.0`, `backoff_factor = 2.0` and
`max_retries = 3`, the delays before attempts 2, 3, 4 are 1, 2, 4 seconds. -/
theorem c7_backoff_sequence_witness :
    (makeRequest (OrchConfig.mk (some "k") 3 1 2 10 100) none (RateLimiter.mk 100 60 [])
        (fun _ => Attempt.timeout "t") "res" [] true 0 : FetchResult String).sleeps =
      [1, 2, 4] :=
  (c7_backoff_sequence (OrchConfig.mk (some "k") 3 1 2 10 100) (RateLimiter.mk 100 60 [])
      (fun _ => Attempt.timeout "t") "res" [] 0 "k"
      (fun _ => .networkError "Request timeout: t") rfl (by decide) (fun _ => rfl)).trans
    (by decide)

/-- Claim C10: an in-loop exception that is neither an httpx timeout/network
error nor a fatal typed error — e.g. a `response.json()` decode failure on a
non-error status — is recorded as `APIError(500, "Unexpected error: ...")`
and treated as retryable: the loop sleeps the backoff sequence and dispatches
again, using all `max_retries + 1` attempts, and only then surfaces that
`APIError` (it is not raised immediately as fatal). -/
theorem c10_decode_error_retryable (cfg : OrchConfig) (rl : RateLimiter)
    (transport : ℕ → Attempt α) (rid : String) (params : List (String × ParamVal))
    (now : ℚ) (key : String) (em : ℕ → String)
    (hk : cfg.apiKey = some key) (hk2 : key ≠ "")
    (ht : ∀ j, (transport j).retryExc = some (.apiError 500 (em j))) :
    (makeRequest cfg none rl transport rid params true now).invocations =
      cfg.maxRetries + 1 ∧
    (makeRequest cfg none rl transport rid params true now).outcome =
      .error (.apiError 500 (em cfg.maxRetries)) ∧
    (makeRequest cfg none rl transport rid params true now).sleeps =
      (List.range cfg.maxRetries).map
        (fun j => cfg.retryDelay * cfg.backoffFactor ^ j) := by
  simp only [makeRequest, hk, if_neg hk2]
  rw [requestLoop_all_retryable cfg transport rid (fun j => .apiError 500 (em j)) ht
    cfg.maxRetries 0 none]
  simp

/-- Witness for C10: a stub answering HTTP 200 with an undecodable body, with
`max_retries = 2`: three invocations, two backoff sleeps, and the final error
is `APIError(500, ...)`. -/
theorem c10_decode_error_retryable_witness :
    (makeRequest (OrchConfig.mk (some "k") 2 1 2 10 100) none (RateLimiter.mk 100 60 [])
        (fun _ => Attempt.ok 200 "not json" (Except.error "Expecting value")) "res" []
        true 0 : FetchResult String).invocations = 3 ∧
    (makeRequest (OrchConfig.mk (some "k") 2 1 2 10 100) none (RateLimiter.mk 100 60 [])
        (fun _ => Attempt.ok 200 "not json" (Except.error "Expecting value")) "res" []
        true 0 : FetchResult String).outcome =
      .error (.apiError 500 "Unexpected error: Expecting value") ∧
    (makeRequest (OrchConfig.mk (some "k") 2 1 2 10 100) none (RateLimiter.mk 100 60 [])
        (fun _ => Attempt.ok 200 "not json" (Except.error "Expecting value")) "res" []
        true 0 : FetchResult String).sleeps =
      (List.range 2).map (fun j => (1 : ℚ) * (2 : ℚ) ^ j) :=
  c10_decode_error_retryable (OrchConfig.mk (some "k") 2 1 2 10 100)
    (RateLimiter.mk 100 60 [])
    (fun _ => Attempt.ok 200 "not json" (Except.error "Expecting value")) "res" [] 0 "k"
    (fun _ => "Unexpected error: Expecting value") rfl (by decide) (fun _ => rfl)

/-! ### Claim C3: cache hit avoids the network -/

/-- Scenario configuration for C3 (cache enabled, TTL 3600). -/
def c3Cfg : OrchConfig := OrchConfig.mk (some "k") 3 1 2 10 100

/-- HTTP stub for C3: always HTTP 200 with a decodable payload. -/
def c3Transport : ℕ → Attempt String :=
  fun _ => Attempt.ok 200 "" (Except.ok "records")

/-- First `fetch("R", {}, 0, 10)` of the C3 scenario, on a fresh client. -/
def c3First : FetchResult String :=
  getResource c3Cfg (some (Cache.empty 1000 3600)) (RateLimiter.mk 100 60 [])
    c3Transport "R" none 0 (some 10) 0

/-- Second identical `fetch`, one second later, on the resulting state. -/
def c3Second : FetchResult String :=
  getResource c3Cfg c3First.cache c3First.limiter c3Transport "R" none 0 (some 10) 1

/-- Claim C3: if a fresh cache entry exists under the computed key, the cached
payload is returned immediately — the transport is never invoked, no backoff
sleeps happen, and the rate limiter's recorded-call state is unchanged (the
cache state only records the hit).  In the concrete two-fetch scenario the
stub is invoked exactly once over both calls, both calls return the identical
payload, and the second call leaves the limiter untouched. -/
theorem c3_cache_hit_no_network :
    (∀ (cfg : OrchConfig) (c : Cache α) (rl : RateLimiter) (transport : ℕ → Attempt α)
       (rid : String) (params0 : List (String × ParamVal)) (now : ℚ)
       (key : String) (v : α),
       cfg.apiKey = some key → key ≠ "" →
       (c.get (Cache.makeKey [rid] (authParams key params0)) now).1 = some v →
       makeRequest cfg (some c) rl transport rid params0 true now =
         ⟨.ok v, some (c.get (Cache.makeKey [rid] (authParams key params0)) now).2,
          rl, 0, []⟩) ∧
    (c3First.invocations = 1 ∧ c3Second.invocations = 0 ∧
     c3First.outcome = .ok "records" ∧ c3Second.outcome = c3First.outcome ∧
     c3Second.limiter = c3First.limiter) := by
  constructor
  · intro cfg c rl transport rid params0 now key v hk hk2 hHit
    have hpair : c.get (Cache.makeKey [rid] (authParams key params0)) now =
        (some v, (c.get (Cache.makeKey [rid] (authParams key params0)) now).2) :=
      Prod.ext hHit rfl
    simp only [makeRequest, hk, if_neg hk2]
    rw [hpair]
  · exact ⟨by decide, by decide, by decide, by decide, by decide⟩

/-- Cache pre-populated under the key the orchestrator computes for
`fetch("R", offset=0, limit=10)`. -/
def c3HitCache : Cache String :=
  (Cache.empty 1000 3600).set
    (Cache.makeKey ["R"]
      (authParams "k" [("offset", ParamVal.num 0), ("limit", ParamVal.num 10)]))
    "records" none 0

/-- Witness for C3's universal part at a concrete pre-populated cache. -/
theorem c3_cache_hit_no_network_witness :
    makeRequest c3Cfg (some c3HitCache) (RateLimiter.mk 100 60 []) c3Transport "R"
        [("offset", ParamVal.num 0), ("limit", ParamVal.num 10)] true 1 =
      ⟨.ok "records",
       some (c3HitCache.get
         (Cache.makeKey ["R"]
           (authParams "k" [("offset", ParamVal.num 0), ("limit", ParamVal.num 10)])) 1).2,
       RateLimiter.mk 100 60 [], 0, []⟩ :=
  c3_cache_hit_no_network.1 c3Cfg c3HitCache (RateLimiter.mk 100 60 []) c3Transport "R"
    [("offset", ParamVal.num 0), ("limit", ParamVal.num 10)] 1 "k" "records" rfl
    (by decide) (by decide)
